import Mathlib

/-!
Verification of `Shared.ts` from the `typescript-remote-functions` repository.

The file shallowly embeds the two halves of `Shared.ts`:

* the receiving side: the `Payload` envelope codec, the `Registry`, the
  `FunctionHandler.load` registration mechanism and the `FunctionHandler.call`
  dispatcher, and
* the sending side: the `uuid` token generator and the `realize` caller wrapper.

JavaScript promises are modelled by `Except`: a resolved promise is `.ok`, a
rejected one is `.error` carrying the rejection cause.  The ambient
nondeterminism read by `uuid` (the value of `Date.now()` and the rounded random
draw) is made an explicit argument.
-/

namespace RemoteFns

/-- Untyped JavaScript runtime values, as carried in envelopes and payloads. -/
inductive Val : Type where
  | vnull : Val
  | str : String → Val
  | num : Int → Val
  | bool : Bool → Val
  | arr : List Val → Val
  | obj : List (String × Val) → Val

/-- An io-ts style decoder (`t.Type`): validates an untyped value, returning
the decoded value, or `none` on a validation failure (an io-ts `Left`). -/
abbrev Decoder := Val → Option Val

/-- `FN<I, O>` from `Shared.ts`: the declaration record pairing an input codec
`i` with an output codec `o`.  It has no other field; in particular it carries
no name. -/
structure FN where
  i : Decoder
  o : Decoder

/-- `NamedFnDef<I, O> = () => FN<I, O>`: a declaration thunk.  In JavaScript the
thunk is a function and the registration key is the `name` property of the
function object itself; the embedding carries that attribute explicitly next to
the thunk body. -/
structure NamedFnDef where
  name : String
  thunk : Unit → FN

/-- `AsyncFnCall<C, I, O> = (ctx: C, msg: I) => Promise<O>`: a registered
handler.  The promise is modelled by `Except Val Val`, the error component
being the arbitrary JavaScript value the handler rejected with. -/
abbrev Handler (C : Type) := C → Val → Except Val Val

/-- A registry entry `{ type: FN<any, any>, fn }` as stored by `load`. -/
structure Entry (C : Type) where
  type : FN
  fn : Handler C

/-- `Registry<C>`: the own string-keyed properties of the registry object,
from function name to entry.  Reading the object can additionally reach
members inherited from `Object.prototype`; that part of JavaScript property
lookup is modelled by `jsIndex` below. -/
abbrev Registry (C : Type) := String → Option (Entry C)

variable {C : Type}

/-- The field initialiser `registry: Registry<C> = {}` of `FunctionHandler`:
an object literal with no own properties.  Indexing it can still reach the
members it inherits from `Object.prototype` (see `jsIndex`). -/
def emptyRegistry (C : Type) : Registry C := fun _ => none

/-- One `register(type)(fn)` step performed by the loader inside `load`:
`this.registry[type.name] = { type: type(), fn }` — a plain JavaScript object
assignment, keyed by the thunk's `name` attribute, overwriting any previous
entry under that key. -/
def registerFn (r : Registry C) (d : NamedFnDef) (f : Handler C) : Registry C :=
  fun k => if k = d.name then some ⟨d.thunk (), f⟩ else r k

/-- `FunctionHandler.load(loader)`: the loader body is a sequence of
`register(decl)(fn)` calls, modelled as the list of (declaration thunk,
handler) pairs it registers, executed left to right against the current
registry. -/
def load (r : Registry C) (regs : List (NamedFnDef × Handler C)) : Registry C :=
  regs.foldl (fun acc p => registerFn acc p.1 p.2) r

/-- The envelope codec `Payload = t.tuple([t.string, t.string, t.any])`:
accepts exactly a three-element array whose first two components are strings;
the third component is unconstrained (`t.any`). -/
def decodeEnvelope : Val → Option (String × String × Val)
  | .arr [.str name, .str token, payload] => some (name, token, payload)
  | _ => none

/-- The member names every object literal inherits from `Object.prototype`.
Indexing the registry with one of these (when no registration shadows it)
yields the inherited member — a function, or `Object.prototype` itself for
`__proto__`, in every case a truthy value — rather than `undefined`. -/
def protoMembers : List String :=
  ["constructor", "hasOwnProperty", "isPrototypeOf", "propertyIsEnumerable",
   "toLocaleString", "toString", "valueOf", "__proto__", "__defineGetter__",
   "__defineSetter__", "__lookupGetter__", "__lookupSetter__"]

/-- Outcome of the JavaScript property read `this.registry[name]`: an own
registered entry, a truthy member inherited from `Object.prototype`, or
`undefined`. -/
inductive JsLookup (C : Type) where
  | own : Entry C → JsLookup C
  | inherited : JsLookup C
  | absent : JsLookup C

/-- The property read `this.registry[name]`: the own property when present,
otherwise the prototype chain — an inherited `Object.prototype` member for
the names in `protoMembers`, `undefined` for every other name. -/
def jsIndex (r : Registry C) (name : String) : JsLookup C :=
  match r name with
  | some e => .own e
  | none => if name ∈ protoMembers then .inherited else .absent

/-- The failure kinds a dispatch can surface, one per failure path of
`FunctionHandler.call`: the three `throw new Error(...)` sites (`Payload
error`, `Handler missing for ...`, `Invalid input for ...`), the propagated
rejection of the awaited handler promise carrying the underlying cause, and
the `TypeError` raised at `handler.type.i` when the registry read returned an
inherited `Object.prototype` member — a truthy value with no `type` property,
so the `if (!handler)` guard does not fire. -/
inductive CallError : Type where
  | envelopeDecodeError : CallError
  | unknownFunctionError : String → CallError
  | inputDecodeError : String → CallError
  | handlerExecutionError : Val → CallError
  | typeError : CallError

/-- The success value `{ token, result }` returned by `call`. -/
structure DispatchResult where
  token : String
  result : Val

/-- `FunctionHandler.call(context, msg)`: decode the envelope, read
`this.registry[name]` (prototype chain included), throw `Handler missing` only
when that read yields `undefined`, hit the `TypeError` at `handler.type.i`
when it yields a truthy inherited member, otherwise decode the payload against
the matched declaration's input codec, await the handler, and package
`{ token, result }`. -/
def call (r : Registry C) (ctx : C) (msg : Val) : Except CallError DispatchResult :=
  match decodeEnvelope msg with
  | none => .error .envelopeDecodeError
  | some (name, token, args) =>
    match jsIndex r name with
    | .absent => .error (.unknownFunctionError name)
    | .inherited => .error .typeError
    | .own handler =>
      match handler.type.i args with
      | none => .error (.inputDecodeError name)
      | some input =>
        match handler.fn ctx input with
        | .error cause => .error (.handlerExecutionError cause)
        | .ok result => .ok ⟨token, result⟩

/-- `FunctionHandler.call` with the instance state (`this.registry`) threaded
explicitly: each statement of the method body reads the registry and the method
contains no assignment to it, so every path returns the registry it received. -/
def callS (r : Registry C) (ctx : C) (msg : Val) :
    Except CallError DispatchResult × Registry C :=
  match decodeEnvelope msg with
  | none => (.error .envelopeDecodeError, r)
  | some (name, token, args) =>
    match jsIndex r name with
    | .absent => (.error (.unknownFunctionError name), r)
    | .inherited => (.error .typeError, r)
    | .own handler =>
      match handler.type.i args with
      | none => (.error (.inputDecodeError name), r)
      | some input =>
        match handler.fn ctx input with
        | .error cause => (.error (.handlerExecutionError cause), r)
        | .ok result => (.ok ⟨token, result⟩, r)

/-- The character JavaScript uses for one base-16 digit in
`Number.prototype.toString(16)`. -/
def hexChar (d : Nat) : Char :=
  if d < 10 then Char.ofNat (48 + d) else Char.ofNat (87 + d)

/-- Base-16 digit expansion of a number, most significant digit first (empty
for `0`), computed with explicit fuel so that it is structurally recursive;
`fuel = n` always suffices since the value shrinks at least as fast as the
fuel. -/
def hexDigitsAux : Nat → Nat → List Nat
  | _, 0 => []
  | 0, _ + 1 => []
  | fuel + 1, n + 1 => hexDigitsAux fuel ((n + 1) / 16) ++ [(n + 1) % 16]

/-- Base-16 digit expansion of a number, most significant digit first (empty
for `0`). -/
def hexDigits (n : Nat) : List Nat := hexDigitsAux n n

/-- `Number.prototype.toString(16)` on a natural number. -/
def toHexString (n : Nat) : String :=
  if n = 0 then "0" else String.mk ((hexDigits n).map hexChar)

/-- Read a base-16 digit list back into a number; inverse of `hexDigits`. -/
def ofHexDigits (l : List Nat) : Nat := l.foldl (fun a d => 16 * a + d) 0

/-- `const uuid = () => Date.now().toString() + Math.round(Math.random() * 256).toString(16)`.
The clock value and the rounded random draw that the invocation observes are
explicit arguments: the generated token is the decimal rendering of the clock
followed by the hexadecimal rendering of the draw. -/
def uuid (now : Nat) (salt : Nat) : String :=
  toString now ++ toHexString salt

/-- `Sender<I, O> = (name, makeToken, input) => Promise<O>`: the pluggable
transport send function. -/
abbrev Sender := String → (Unit → String) → Val → Except Val Val

/-- `realize(decl)(send)`: the returned callable forwards
`send(decl.name, uuid, input)` — the thunk's `name` attribute, the zero-argument
token factory, and the input, unchanged.  `env = (now, salt)` is the
observation `uuid` makes if and when `send` chooses to invoke the factory. -/
def realize (decl : NamedFnDef) (send : Sender) (env : Nat × Nat) (input : Val) :
    Except Val Val :=
  send decl.name (fun _ => uuid env.1 env.2) input

/-- Iterated dispatch: the registry resulting from a sequence of `call`
invocations, each performed on the registry left by the previous one. -/
def runCalls (r : Registry C) (steps : List (C × Val)) : Registry C :=
  steps.foldl (fun acc s => (callS acc s.1 s.2).2) r

/-! ## Concrete fixtures

Declarations, handlers and registries from the README example, used as
concrete inputs by the witness theorems below. -/

/-- Decoder accepting any value unchanged (`t.any`). -/
def anyDecoder : Decoder := fun v => some v

/-- Input codec of the README example declaration `Add`:
`t.type({a: t.number, b: t.number})` on exact two-field records. -/
def addInput : Decoder
  | .obj [("a", .num a), ("b", .num b)] => some (.obj [("a", .num a), ("b", .num b)])
  | _ => none

/-- Output codec of the README example declaration `Add` (`t.number`). -/
def addOutput : Decoder
  | .num n => some (.num n)
  | _ => none

/-- The README example declaration thunk `Add`. -/
def addDecl : NamedFnDef := ⟨"Add", fun _ => ⟨addInput, addOutput⟩⟩

/-- The README example handler for `Add`: resolves with `a + b`. -/
def addHandler : Handler Unit := fun _ v =>
  match v with
  | .obj [("a", .num a), ("b", .num b)] => .ok (.num (a + b))
  | _ => .error .vnull

/-- An alternative declaration thunk also named `Add`, with different codecs,
used to exhibit silent overwriting of a duplicate name. -/
def addDecl2 : NamedFnDef := ⟨"Add", fun _ => ⟨anyDecoder, anyDecoder⟩⟩

/-- An alternative handler for `Add`, used to exhibit silent overwriting. -/
def addHandler2 : Handler Unit := fun _ _ => Except.ok (.num 0)

/-- A declaration whose handler always rejects, to exercise failure
propagation. -/
def boomDecl : NamedFnDef := ⟨"Boom", fun _ => ⟨anyDecoder, anyDecoder⟩⟩

/-- A handler that always rejects with the cause `"boom"`. -/
def boomHandler : Handler Unit := fun _ _ => Except.error (.str "boom")

/-- A declaration registered before a later `load`, to exhibit additivity. -/
def preDecl : NamedFnDef := ⟨"Pre", fun _ => ⟨anyDecoder, anyDecoder⟩⟩

/-- The handler registered under `"Pre"`. -/
def preHandler : Handler Unit := fun _ _ => Except.ok .vnull

/-- Registry fixture holding `Add` alone. -/
def demoRegistry : Registry Unit := registerFn (emptyRegistry Unit) addDecl addHandler

/-- Loader fixture registering `Boom` and then `Add`. -/
def demoRegs : List (NamedFnDef × Handler Unit) := [(boomDecl, boomHandler), (addDecl, addHandler)]

/-! ## Helper lemmas -/

/-- `call` with explicit state is `call` paired with the unchanged registry. -/
lemma callS_eq (r : Registry C) (ctx : C) (msg : Val) :
    callS r ctx msg = (call r ctx msg, r) := by
  rcases h1 : decodeEnvelope msg with _ | ⟨name, token, args⟩
  · simp [callS, call, h1]
  · rcases h2 : jsIndex r name with e | _ | _
    · rcases h3 : e.type.i args with _ | v
      · simp [callS, call, h1, h2, h3]
      · rcases h4 : e.fn ctx v with cause | res <;> simp [callS, call, h1, h2, h3, h4]
    · simp [callS, call, h1, h2]
    · simp [callS, call, h1, h2]

/-- A key registered by none of the loader's registrations is left untouched
by `load`. -/
lemma load_apply_of_not_mem (r : Registry C) (regs : List (NamedFnDef × Handler C)) (k : String)
    (h : k ∉ regs.map fun p => p.1.name) : load r regs k = r k := by
  induction regs generalizing r with
  | nil => rfl
  | cons p ps ih =>
    simp only [List.map_cons, List.mem_cons, not_or] at h
    show load (registerFn r p.1 p.2) ps k = r k
    rw [ih _ h.2]
    simp [registerFn, h.1]

/-- With pairwise-distinct names, `load` stores each registration's entry
under its declaration's name. -/
lemma load_apply_of_mem (regs : List (NamedFnDef × Handler C)) (d : NamedFnDef) (f : Handler C)
    (r : Registry C) (hmem : (d, f) ∈ regs) (hnd : (regs.map fun p => p.1.name).Nodup) :
    load r regs d.name = some ⟨d.thunk (), f⟩ := by
  induction regs generalizing r with
  | nil => cases hmem
  | cons p ps ih =>
    simp only [List.map_cons, List.nodup_cons] at hnd
    rcases List.mem_cons.mp hmem with heq | htail
    · subst heq
      show load (registerFn r d f) ps d.name = _
      rw [load_apply_of_not_mem _ _ _ hnd.1]
      simp [registerFn]
    · exact ih (registerFn r p.1 p.2) htail hnd.2

/-- `ofHexDigits` undoes `hexDigitsAux` whenever the fuel covers the value. -/
lemma ofHexDigits_hexDigitsAux : ∀ fuel n, n ≤ fuel → ofHexDigits (hexDigitsAux fuel n) = n := by
  intro fuel
  induction fuel with
  | zero =>
    intro n hn
    have hn0 : n = 0 := by omega
    subst hn0
    rfl
  | succ fuel ih =>
    intro n hn
    match n with
    | 0 => rfl
    | n + 1 =>
      have hdiv : (n + 1) / 16 < n + 1 := Nat.div_lt_self (Nat.succ_pos n) (by omega)
      have hih : ofHexDigits (hexDigitsAux fuel ((n + 1) / 16)) = (n + 1) / 16 :=
        ih ((n + 1) / 16) (by omega)
      show ofHexDigits (hexDigitsAux fuel ((n + 1) / 16) ++ [(n + 1) % 16]) = n + 1
      rw [ofHexDigits, List.foldl_append]
      simp only [List.foldl_cons, List.foldl_nil]
      rw [show List.foldl (fun a d => 16 * a + d) 0 (hexDigitsAux fuel ((n + 1) / 16)) =
        (n + 1) / 16 from hih]
      omega

/-- Every entry produced by `hexDigitsAux` is a base-16 digit. -/
lemma hexDigitsAux_lt : ∀ fuel n d, d ∈ hexDigitsAux fuel n → d < 16 := by
  intro fuel
  induction fuel with
  | zero =>
    intro n d hd
    match n with
    | 0 => simp [hexDigitsAux] at hd
    | n + 1 => simp [hexDigitsAux] at hd
  | succ fuel ih =>
    intro n d hd
    match n with
    | 0 => simp [hexDigitsAux] at hd
    | n + 1 =>
      rcases List.mem_append.mp hd with h | h
      · exact ih _ _ h
      · have : d = (n + 1) % 16 := List.mem_singleton.mp h
        omega

/-- Every entry of `hexDigits n` is a base-16 digit. -/
lemma mem_hexDigits_lt (n d : Nat) (hd : d ∈ hexDigits n) : d < 16 :=
  hexDigitsAux_lt n n d hd

/-- `ofHexDigits` undoes `hexDigits`. -/
lemma ofHexDigits_hexDigits (n : Nat) : ofHexDigits (hexDigits n) = n :=
  ofHexDigits_hexDigitsAux n n le_rfl

/-- `hexChar` is injective on base-16 digits. -/
lemma hexChar_inj : ∀ a < 16, ∀ b < 16, hexChar a = hexChar b → a = b := by decide

/-- Mapping `hexChar` over digit lists is injective. -/
lemma map_hexChar_inj : ∀ l1 l2 : List Nat, (∀ d ∈ l1, d < 16) → (∀ d ∈ l2, d < 16) →
    l1.map hexChar = l2.map hexChar → l1 = l2 := by
  intro l1
  induction l1 with
  | nil =>
    intro l2 _ _ h
    cases l2 with
    | nil => rfl
    | cons b bs => simp at h
  | cons a as ih =>
    intro l2 h1 h2 h
    cases l2 with
    | nil => simp at h
    | cons b bs =>
      simp only [List.map_cons, List.cons.injEq] at h
      have hab : a = b :=
        hexChar_inj a (h1 a (List.mem_cons_self a as)) b (h2 b (List.mem_cons_self b bs)) h.1
      rw [hab, ih bs (fun d hd => h1 d (List.mem_cons_of_mem a hd))
        (fun d hd => h2 d (List.mem_cons_of_mem b hd)) h.2]

/-- Only `0` renders to the hex string `"0"`. -/
lemma eq_zero_of_toHexString_eq (b : Nat) (h : toHexString b = "0") : b = 0 := by
  by_contra hb
  rw [toHexString, if_neg hb] at h
  have hd : (hexDigits b).map hexChar = ['0'] := congrArg String.data h
  match hl : hexDigits b with
  | [] => rw [hl] at hd; simp at hd
  | d :: rest =>
    rw [hl] at hd
    simp only [List.map_cons, List.cons.injEq] at hd
    have hrest : rest = [] := by
      have := hd.2
      cases rest with
      | nil => rfl
      | cons x xs => simp at this
    have hd16 : d < 16 := mem_hexDigits_lt b d (hl ▸ List.mem_cons_self d rest)
    have hd0 : d = 0 := hexChar_inj d hd16 0 (by omega) (hd.1.trans rfl)
    have hrt := ofHexDigits_hexDigits b
    rw [hl, hrest, hd0] at hrt
    exact hb (hrt.symm.trans rfl)

/-- `toHexString` is injective: distinct numbers render to distinct hex
strings. -/
lemma toHexString_inj (a b : Nat) (h : toHexString a = toHexString b) : a = b := by
  by_cases ha : a = 0
  · subst ha
    rw [toHexString, if_pos rfl] at h
    exact (eq_zero_of_toHexString_eq b h.symm).symm
  · by_cases hb : b = 0
    · subst hb
      rw [show toHexString 0 = "0" from rfl] at h
      exact eq_zero_of_toHexString_eq a h
    · rw [toHexString, if_neg ha, toHexString, if_neg hb] at h
      have hdata : (hexDigits a).map hexChar = (hexDigits b).map hexChar :=
        congrArg String.data h
      have hdig := map_hexChar_inj (hexDigits a) (hexDigits b)
        (fun d hd => mem_hexDigits_lt a d hd) (fun d hd => mem_hexDigits_lt b d hd) hdata
      have ra := ofHexDigits_hexDigits a
      rw [hdig] at ra
      exact ra.symm.trans (ofHexDigits_hexDigits b)

/-! ## Claims -/

/-- **C1 (code bug).** The claimed check order breaks at wire names that
collide with `Object.prototype` members: dispatching `("toString", "t", {})`
against a registry with no registration named `toString` does not fail with
`unknownFunctionError "toString"` — the property read returns the inherited
truthy `Object.prototype.toString`, the `if (!handler)` guard is skipped, and
the dispatch dies with the `TypeError` at `handler.type.i` instead.  An
ordinary absent name such as `"Nope"` still fails with
`unknownFunctionError "Nope"` as the claim (and the spec) intend. -/
theorem dispatch_inherited_name_type_error :
    call (emptyRegistry Unit) () (.arr [.str "toString", .str "t", .obj []]) =
      .error .typeError ∧
    call (emptyRegistry Unit) () (.arr [.str "toString", .str "t", .obj []]) ≠
      .error (.unknownFunctionError "toString") ∧
    call (emptyRegistry Unit) () (.arr [.str "Nope", .str "t", .obj []]) =
      .error (.unknownFunctionError "Nope") := by
  have h : call (emptyRegistry Unit) () (.arr [.str "toString", .str "t", .obj []]) =
      .error .typeError := rfl
  refine ⟨h, ?_, rfl⟩
  rw [h]
  simp

/-- **C2.** On a fully successful dispatch, `call` returns `{ token, result }`
where `token` is exactly the string carried by the envelope — the empty-string
fire-and-forget sentinel included, with no interpretation — and `result` is
the value the handler resolved to. -/
theorem call_success_echoes_token (r : Registry C) (ctx : C) (msg : Val)
    (name token : String) (args input res : Val) (e : Entry C)
    (hdec : decodeEnvelope msg = some (name, token, args))
    (hreg : r name = some e)
    (hin : e.type.i args = some input)
    (hrun : e.fn ctx input = .ok res) :
    call r ctx msg = .ok ⟨token, res⟩ := by
  simp [call, jsIndex, hdec, hreg, hin, hrun]

/-- Witness for C2: a fire-and-forget `Add` dispatch with the empty-string
token still computes and returns `{ token: "", result: 3 }`. -/
theorem call_success_echoes_token_witness :
    call demoRegistry () (.arr [.str "Add", .str "", .obj [("a", .num 1), ("b", .num 2)]]) =
      .ok ⟨"", .num 3⟩ :=
  call_success_echoes_token demoRegistry ()
    (.arr [.str "Add", .str "", .obj [("a", .num 1), ("b", .num 2)]])
    "Add" "" (.obj [("a", .num 1), ("b", .num 2)]) (.obj [("a", .num 1), ("b", .num 2)])
    (.num 3) ⟨⟨addInput, addOutput⟩, addHandler⟩ rfl rfl rfl rfl

/-- **C3.** In a registry built from declarations with pairwise-distinct
names, dispatching a well-formed envelope carrying name `d.name` invokes
exactly the handler `f` registered with `d`: the dispatch outcome is `f`'s
outcome, whatever the other registrations are. -/
theorem dispatch_invokes_registered_handler (regs : List (NamedFnDef × Handler C))
    (d : NamedFnDef) (f : Handler C) (ctx : C) (msg : Val) (token : String) (args input : Val)
    (hnd : (regs.map fun p => p.1.name).Nodup)
    (hmem : (d, f) ∈ regs)
    (hdec : decodeEnvelope msg = some (d.name, token, args))
    (hin : (d.thunk ()).i args = some input) :
    call (load (emptyRegistry C) regs) ctx msg =
      match f ctx input with
      | .ok res => .ok ⟨token, res⟩
      | .error cause => .error (.handlerExecutionError cause) := by
  have hl := load_apply_of_mem regs d f (emptyRegistry C) hmem hnd
  rcases hf : f ctx input with cause | res <;> simp [call, jsIndex, hdec, hl, hin, hf]

/-- Witness for C3: in the two-entry `Boom`/`Add` registry, an `Add` envelope
reaches the `Add` handler and only it. -/
theorem dispatch_invokes_registered_handler_witness :
    call (load (emptyRegistry Unit) demoRegs) ()
      (.arr [.str "Add", .str "t1", .obj [("a", .num 1), ("b", .num 2)]]) =
      .ok ⟨"t1", .num 3⟩ :=
  dispatch_invokes_registered_handler demoRegs addDecl addHandler ()
    (.arr [.str "Add", .str "t1", .obj [("a", .num 1), ("b", .num 2)]])
    "t1" (.obj [("a", .num 1), ("b", .num 2)]) (.obj [("a", .num 1), ("b", .num 2)])
    (by decide) (List.mem_cons_of_mem _ (List.mem_cons_self _ _)) rfl rfl

/-- **C4.** When the invoked handler itself fails, `call` surfaces the failure
to its caller as `handlerExecutionError` carrying the underlying cause,
unchanged; moreover the four failure kinds of a dispatch are pairwise
distinguishable, so the transport can branch on them. -/
theorem call_propagates_handler_failure (r : Registry C) (ctx : C) (msg : Val)
    (name token : String) (args input cause : Val) (e : Entry C)
    (hdec : decodeEnvelope msg = some (name, token, args))
    (hreg : r name = some e)
    (hin : e.type.i args = some input)
    (hrun : e.fn ctx input = .error cause) :
    call r ctx msg = .error (.handlerExecutionError cause) ∧
    ∀ s t : String, ∀ v : Val,
      CallError.envelopeDecodeError ≠ .unknownFunctionError s ∧
      CallError.envelopeDecodeError ≠ .inputDecodeError s ∧
      CallError.envelopeDecodeError ≠ .handlerExecutionError v ∧
      CallError.unknownFunctionError s ≠ .inputDecodeError t ∧
      CallError.unknownFunctionError s ≠ .handlerExecutionError v ∧
      CallError.inputDecodeError s ≠ .handlerExecutionError v := by
  constructor
  · simp [call, jsIndex, hdec, hreg, hin, hrun]
  · intro s t v
    refine ⟨?_, ?_, ?_, ?_, ?_, ?_⟩ <;> intro h <;> exact CallError.noConfusion h

/-- Witness for C4: the always-rejecting `Boom` handler's cause `"boom"`
surfaces unchanged as `handlerExecutionError`. -/
theorem call_propagates_handler_failure_witness :
    call (load (emptyRegistry Unit) demoRegs) () (.arr [.str "Boom", .str "t", .vnull]) =
      .error (.handlerExecutionError (.str "boom")) :=
  (call_propagates_handler_failure (load (emptyRegistry Unit) demoRegs) ()
    (.arr [.str "Boom", .str "t", .vnull]) "Boom" "t" .vnull .vnull (.str "boom")
    ⟨⟨anyDecoder, anyDecoder⟩, boomHandler⟩ rfl rfl rfl rfl).1

/-- **C5.** One `register(decl)(fn)` step stores `{declaration: decl(),
handler: fn}` under the key `decl.name`, leaves every other key untouched, and
a second registration under an already-present name silently overwrites the
earlier entry — the later registration wins, and registration is a total
operation that can signal no error. -/
theorem register_inserts_and_overwrites (r : Registry C) (d : NamedFnDef) (f : Handler C) :
    registerFn r d f d.name = some ⟨d.thunk (), f⟩ ∧
    (∀ k, k ≠ d.name → registerFn r d f k = r k) ∧
    ∀ d2 f2, d2.name = d.name →
      registerFn (registerFn r d f) d2 f2 d.name = some ⟨d2.thunk (), f2⟩ :=
  ⟨by simp [registerFn], fun k hk => by simp [registerFn, hk],
   fun d2 f2 h => by simp [registerFn, h]⟩

/-- Witness for C5: registering a second `Add` declaration silently replaces
the first entry, while the unrelated key `"Other"` stays absent. -/
theorem register_inserts_and_overwrites_witness :
    registerFn (emptyRegistry Unit) addDecl addHandler "Add" =
      some ⟨⟨addInput, addOutput⟩, addHandler⟩ ∧
    registerFn (emptyRegistry Unit) addDecl addHandler "Other" = none ∧
    registerFn (registerFn (emptyRegistry Unit) addDecl addHandler) addDecl2 addHandler2 "Add" =
      some ⟨⟨anyDecoder, anyDecoder⟩, addHandler2⟩ :=
  ⟨(register_inserts_and_overwrites (emptyRegistry Unit) addDecl addHandler).1,
   (register_inserts_and_overwrites (emptyRegistry Unit) addDecl addHandler).2.1 "Other"
     (by decide),
   (register_inserts_and_overwrites (emptyRegistry Unit) addDecl addHandler).2.2 addDecl2
     addHandler2 rfl⟩

/-- **C6.** The callable produced by `realize(decl)(send)` resolves to exactly
what `send(decl.name, token_factory, input)` resolves to — it forwards the
declaration's name, a zero-argument token factory and the unchanged input —
and it imposes no validation on the output: a value rejected by the
declaration's output codec is returned untouched. -/
theorem realize_forwards_to_send (d : NamedFnDef) (send : Sender) (env : Nat × Nat)
    (input : Val) :
    realize d send env input = send d.name (fun _ => uuid env.1 env.2) input ∧
    ∀ out : Val, (d.thunk ()).o out = none →
      realize d (fun _ _ _ => .ok out) env input = .ok out :=
  ⟨rfl, fun _ _ => rfl⟩

/-- Witness for C6: a recording send function observes exactly the name
`"Add"`, the lazily produced token and the unchanged input; and a send
resolving to a value the `Add` output codec rejects is passed through. -/
theorem realize_forwards_to_send_witness :
    realize addDecl (fun name mk input => .ok (.arr [.str name, .str (mk ()), input]))
      (5, 7) (.num 1) = .ok (.arr [.str "Add", .str "57", .num 1]) ∧
    realize addDecl (fun _ _ _ => .ok (.str "untyped")) (5, 7) (.num 1) =
      .ok (.str "untyped") :=
  ⟨(realize_forwards_to_send addDecl
      (fun name mk input => .ok (.arr [.str name, .str (mk ()), input])) (5, 7) (.num 1)).1.trans
      rfl,
   (realize_forwards_to_send addDecl (fun _ _ _ => .ok (.str "untyped")) (5, 7) (.num 1)).2
      (.str "untyped") rfl⟩

/-- **C7.** Dispatching never mutates the registry: any number of `call`
invocations, on any envelopes, leaves the registry mapping equal to what it
was before them, and repeating an identical dispatch (handlers being pure
functions here) produces an equal outcome. -/
theorem call_never_mutates_registry (r : Registry C) :
    (∀ steps : List (C × Val), runCalls r steps = r) ∧
    ∀ ctx msg, (callS r ctx msg).2 = r ∧
      callS ((callS r ctx msg).2) ctx msg = callS r ctx msg := by
  have hsnd : ∀ (r2 : Registry C) (ctx : C) (msg : Val), (callS r2 ctx msg).2 = r2 := by
    intro r2 ctx msg
    rw [callS_eq]
  constructor
  · intro steps
    induction steps generalizing r with
    | nil => rfl
    | cons s ss ih =>
      show runCalls ((callS r s.1 s.2).2) ss = r
      rw [hsnd, ih]
  · intro ctx msg
    exact ⟨hsnd r ctx msg, by rw [hsnd]⟩

/-- **C8 counterexample.** The generated token is a pure function of the
clock value and random draw an invocation observes, so distinct invocations
can produce equal strings: observing clock `1` with draw `16` and clock `11`
with draw `0` both yield `"110"`, and two invocations in the same millisecond
with the same draw trivially coincide. -/
theorem uuid_collides_across_invocations :
    uuid 1 16 = uuid 11 0 ∧ uuid 1700000000000 7 = uuid 1700000000000 7 :=
  ⟨by decide, rfl⟩

/-- **C8 (amended).** The token generator does not guarantee uniqueness among
concurrently outstanding tokens: the produced string is exactly the decimal
clock value followed by the hexadecimal random draw, and what holds is that
two invocations observing the same clock value produce distinct strings if
and only if their random draws differ. -/
theorem uuid_same_clock_distinct_iff (now s1 s2 : Nat) :
    uuid now s1 = toString now ++ toHexString s1 ∧
    (uuid now s1 = uuid now s2 ↔ s1 = s2) := by
  refine ⟨rfl, fun h => ?_, fun h => by rw [h]⟩
  have hdata := congrArg String.data h
  rw [uuid, uuid, String.data_append, String.data_append] at hdata
  exact toHexString_inj s1 s2 (String.ext (List.append_cancel_left hdata))

/-- **C9.** Registration and sending agree on the name: `register` stores the
handler under the `name` attribute of the thunk itself (the declaration
record `FN` it returns carries only the codecs `i` and `o`), and the name a
`realize`d callable hands to its send function is that same attribute, so the
callable targets exactly the key under which the handler was stored. -/
theorem register_and_realize_agree_on_name (d : NamedFnDef) (f : Handler C) (r : Registry C)
    (env : Nat × Nat) (input : Val) (n : String)
    (hsent : realize d (fun name _ _ => .ok (.str name)) env input = .ok (.str n)) :
    registerFn r d f n = some ⟨d.thunk (), f⟩ := by
  have hn : d.name = n := by simpa [realize] using hsent
  subst hn
  simp [registerFn]

/-- Witness for C9: the name a `realize`d `Add` callable transmits is the key
under which `register` stored the `Add` handler. -/
theorem register_and_realize_agree_on_name_witness :
    registerFn (emptyRegistry Unit) addDecl addHandler "Add" =
      some ⟨⟨addInput, addOutput⟩, addHandler⟩ :=
  register_and_realize_agree_on_name addDecl addHandler (emptyRegistry Unit) (0, 0) .vnull
    "Add" rfl

/-- **C10.** `load` is additive and the registry is never sealed: a later
`load` leaves every key it does not re-register exactly as the earlier loads
left it, and loading after a dispatch has happened acts on the same registry
as loading before it, since dispatch leaves the registry intact. -/
theorem load_is_additive (r : Registry C) (regs : List (NamedFnDef × Handler C)) :
    (∀ k, k ∉ (regs.map fun p => p.1.name) → load r regs k = r k) ∧
    ∀ ctx msg, load ((callS r ctx msg).2) regs = load r regs := by
  refine ⟨fun k hk => load_apply_of_not_mem r regs k hk, fun ctx msg => ?_⟩
  rw [show (callS r ctx msg).2 = r by rw [callS_eq]]

/-- Witness for C10: after a second `load` registering `Boom` and `Add`, the
entry registered earlier under `"Pre"` is still present. -/
theorem load_is_additive_witness :
    load (registerFn (emptyRegistry Unit) preDecl preHandler) demoRegs "Pre" =
      some ⟨⟨anyDecoder, anyDecoder⟩, preHandler⟩ :=
  ((load_is_additive (registerFn (emptyRegistry Unit) preDecl preHandler) demoRegs).1 "Pre"
    (by decide)).trans rfl

end RemoteFns
